import Mathlib

/-!
A model of the outbound (sender) side of the Homa transport module
(`homa_outgoing.c`): message initialization and fragmentation
(`homa_message_out_init`), the data-send loop (`homa_xmit_data`), the common
transmit path (`__homa_xmit_data`), range retransmission (`homa_resend_data`),
the link-idle clock (`homa_update_idle_time`) and the throttled list
(`homa_add_to_throttled`), together with theorems about their behaviour.

Machine integers are modelled as `Nat` (all the quantities involved are
non-negative and far from 32/64-bit overflow at the values the driver uses);
signed C `int` subtractions that can go negative (remaining-byte computations)
are performed in `Int`.  The mocked clock of the driver's unit tests
(`get_cycles()` frozen at a value `now`) is modelled by passing `now`
explicitly.  Buffer allocation and user-space copying are modelled as
succeeding; their failure paths depend only on the environment.
-/

/-- Modelled from the spec: `HOMA_MAX_DATA_PER_PACKET = 1400` (the constant
lives in `homa_impl.h`, which is not part of the sources here; the spec fixes
the literal value 1400). -/
def HOMA_MAX_DATA_PER_PACKET : ℕ := 1400

/-- Modelled from the spec: size in bytes of `struct data_header`
(`sport:u16, dport:u16, id:u64, type:u8, pad:u8, message_length:u32,
offset:u32, unscheduled:u32, cutoff_version:u16, retransmit:u8` = 28 bytes,
matching the `length 1428` packets of the unit tests). -/
def DATA_HEADER_BYTES : ℕ := 28

/-- Modelled from the spec: `HOMA_MAX_IPV4_HEADER` (worst-case IPv4 header). -/
def HOMA_MAX_IPV4_HEADER : ℕ := 60

/-- Modelled from the spec: `HOMA_VLAN_HEADER`. -/
def HOMA_VLAN_HEADER : ℕ := 20

/-- Modelled from the spec: `HOMA_ETH_OVERHEAD` (preamble, CRC, interpacket
gap).  The three overhead constants sum to 104, the value forced by the
`homa_update_idle_time` unit test. -/
def HOMA_ETH_OVERHEAD : ℕ := 24

/-- One outbound packet buffer (`sk_buff` holding a `struct data_header` plus
payload).  `size` is the payload byte count (`cur_size` at build time);
`priority` is the priority most recently applied by `set_priority`;
`shared` models `skb_shared(skb)` (the buffer is still held by a prior
in-flight transmission). -/
structure Packet where
  sport : ℕ
  dport : ℕ
  id : ℕ
  message_length : ℕ
  offset : ℕ
  unscheduled : ℕ
  cutoff_version : ℕ
  retransmit : Bool
  size : ℕ
  priority : ℕ
  shared : Bool
deriving DecidableEq, Repr, Inhabited

/-- `struct homa_message_out`.  `next_packet` (a pointer into the packet
list) is modelled by the index `nextIdx` of the packet it points at;
`next_packet == NULL` corresponds to `nextIdx ≥ packets.length`. -/
structure MessageOut where
  length : ℕ
  packets : List Packet
  nextIdx : ℕ
  next_offset : ℕ
  unscheduled : ℕ
  granted : ℕ
  sched_priority : ℕ
deriving DecidableEq, Repr, Inhabited

/-- The process-wide configuration fields of `struct homa` read by the send
path.  `dont_throttle` models `homa->flags & HOMA_FLAG_DONT_THROTTLE`. -/
structure Config where
  max_message_length : ℕ
  rtt_bytes : ℕ
  throttle_min_bytes : ℕ
  max_nic_queue_cycles : ℕ
  cycles_per_kbyte : ℕ
  dont_throttle : Bool
deriving DecidableEq, Repr

/-- Modelled from the spec: the peer, an external collaborator. It provides
`cutoff_version` and the unscheduled-priority table, read through
`homa_unsched_priority(peer, length)` (a function not among these sources),
modelled as the function `unsched_priority : length → priority`. -/
structure Peer where
  cutoff_version : ℕ
  unsched_priority : ℕ → ℕ

/-- An entry of the throttled list: the identity of an RPC together with the
message fields its list position depends on. -/
structure TRpc where
  id : ℕ
  length : ℕ
  next_offset : ℕ
deriving DecidableEq, Repr

/-- Remaining (not yet sent) bytes of a throttled RPC, as the C `int`
computation `msgout.length - msgout.next_offset`. -/
def TRpc.rem (r : TRpc) : ℤ := (r.length : ℤ) - (r.next_offset : ℤ)

/-- A record of one packet handed to `ip_queue_xmit`: the header's offset,
the priority it was tagged with, and its retransmit flag. -/
structure XmitEvent where
  offset : ℕ
  priority : ℕ
  retransmit : Bool
deriving DecidableEq, Repr

/-- The mutable process-wide state touched by transmission: the link-idle
clock, the throttled list, and the sequence of packets handed to IP. -/
structure NetState where
  link_idle_time : ℕ
  throttled : List TRpc
  log : List XmitEvent
deriving DecidableEq, Repr

/-- Error kinds of the init path (`-EINVAL` for an oversized message). -/
inductive HomaError where
  | EINVAL
deriving DecidableEq, Repr

/-- The packet-building loop of `homa_message_out_init`: iterates
`bytes_left` from `len` down in steps of `HOMA_MAX_DATA_PER_PACKET` while
`bytes_left > 0`, emitting one packet of payload
`cur_size = min(HOMA_MAX_DATA_PER_PACKET, bytes_left)` at offset
`len - bytes_left`. -/
def buildPackets (len uns cut dport sport id : ℕ) (bytes_left : ℕ) :
    List Packet :=
  if _h : 0 < bytes_left then
    let cur_size := min HOMA_MAX_DATA_PER_PACKET bytes_left
    { sport := sport, dport := dport, id := id, message_length := len,
      offset := len - bytes_left, unscheduled := uns, cutoff_version := cut,
      retransmit := false, size := cur_size, priority := 0, shared := false }
      :: buildPackets len uns cut dport sport id
          (bytes_left - HOMA_MAX_DATA_PER_PACKET)
  else []
termination_by bytes_left
decreasing_by
  simp only [HOMA_MAX_DATA_PER_PACKET]; omega

/-- `homa_message_out_init`: sets `unscheduled = homa->rtt_bytes`,
`granted = min(unscheduled, length)`, `sched_priority = 0`, rejects
`len > HOMA_MAX_MESSAGE_LENGTH` with `-EINVAL`, then builds the packet list
and points `next_packet` at its head. -/
def homa_message_out_init (cfg : Config) (len : ℕ)
    (cut dport sport id : ℕ) : Except HomaError MessageOut :=
  let uns := cfg.rtt_bytes
  let granted := if uns > len then len else uns
  if len > cfg.max_message_length then
    Except.error HomaError.EINVAL
  else
    Except.ok
      { length := len,
        packets := buildPackets len uns cut dport sport id len,
        nextIdx := 0, next_offset := 0,
        unscheduled := uns, granted := granted, sched_priority := 0 }

/-- `homa_update_idle_time`: add the wire overhead to the packet bytes,
convert to cycles with `bytes * cycles_per_kbyte / 1000`, and advance the
idle clock to `max(link_idle_time, now) + cycles` (the CAS retry loop of the
C code, serialized). -/
def homa_update_idle_time (cfg : Config) (now idle bytes : ℕ) : ℕ :=
  let wire := bytes + HOMA_MAX_IPV4_HEADER + HOMA_VLAN_HEADER
      + HOMA_ETH_OVERHEAD
  let cycles_for_packet := wire * cfg.cycles_per_kbyte / 1000
  if idle < now then now + cycles_for_packet
  else idle + cycles_for_packet

/-- The scan of `homa_add_to_throttled`: insert `rpc` before the first list
entry whose remaining bytes strictly exceed `rpc`'s remaining bytes
(`list_add_tail_rcu` on that entry), appending at the tail when no entry
does. -/
def throttleInsert (rpc : TRpc) : List TRpc → List TRpc
  | [] => [rpc]
  | c :: rest =>
      if c.rem > rpc.rem then rpc :: c :: rest
      else c :: throttleInsert rpc rest

/-- `homa_add_to_throttled`: a no-op when the RPC is already linked
(`!list_empty(&rpc->throttled_links)`), otherwise the sorted insertion
`throttleInsert`. -/
def homa_add_to_throttled (rpc : TRpc) (lst : List TRpc) : List TRpc :=
  if lst.any (fun r => r.id = rpc.id) then lst
  else throttleInsert rpc lst

/-- Result of the common transmit path `__homa_xmit_data`. -/
structure XmitResult where
  skb : Packet
  idle : ℕ
  ev : XmitEvent

/-- `__homa_xmit_data`: refresh the header's `cutoff_version` from the peer,
hand the buffer to `ip_queue_xmit`, and advance the link-idle clock with the
wire size `skb->tail - skb->transport_header` (header plus payload). -/
def __homa_xmit_data (cfg : Config) (peer_cut now : ℕ) (skb : Packet)
    (idle : ℕ) : XmitResult :=
  let skb' := { skb with cutoff_version := peer_cut }
  { skb := skb',
    idle := homa_update_idle_time cfg now idle (DATA_HEADER_BYTES + skb'.size),
    ev := { offset := skb'.offset, priority := skb'.priority,
            retransmit := skb'.retransmit } }

/-- The `rpc` argument passed to `homa_add_to_throttled` by the throttle
branch of `homa_xmit_data`. -/
def throttleEntry (rpcId : ℕ) (m : MessageOut) : TRpc :=
  { id := rpcId, length := m.length, next_offset := m.next_offset }

/-- The throttle condition of `homa_xmit_data`: remaining bytes above
`throttle_min_bytes`, NIC queue beyond `max_nic_queue_cycles`, and the
`HOMA_FLAG_DONT_THROTTLE` flag clear. -/
def throttleCond (cfg : Config) (now : ℕ) (m : MessageOut)
    (net : NetState) : Prop :=
  ((m.length : ℤ) - (m.next_offset : ℤ) > (cfg.throttle_min_bytes : ℤ))
    ∧ (now + cfg.max_nic_queue_cycles < net.link_idle_time)
    ∧ (cfg.dont_throttle = false)

instance (cfg : Config) (now : ℕ) (m : MessageOut) (net : NetState) :
    Decidable (throttleCond cfg now m net) := by
  unfold throttleCond; infer_instance

/-- The priority chosen for the packet at `next_offset`: the peer's
unscheduled priority while `next_offset < unscheduled`, the message's
`sched_priority` beyond that. -/
def sendPriority (peer : Peer) (m : MessageOut) : ℕ :=
  if m.next_offset < m.unscheduled then peer.unsched_priority m.length
  else m.sched_priority

/-- A packet as handed to the common transmit path by `homa_xmit_data`:
priority tag applied, `retransmit` cleared. -/
def taggedPacket (peer : Peer) (m : MessageOut) (skb : Packet) : Packet :=
  { skb with
    priority := sendPriority peer m
    retransmit := false }

/-- `next_packet` and `next_offset` advanced by one packet. -/
def advanceMsg (m : MessageOut) : MessageOut :=
  { m with
    nextIdx := m.nextIdx + 1
    next_offset := m.next_offset + HOMA_MAX_DATA_PER_PACKET }

/-- The `homa_xmit_data` loop.  While `next_offset < granted` and
`next_packet` is non-null: when throttling applies, add the RPC to the
throttled list and return (the `Bool` of the result records a return through
this path); otherwise advance `next_packet` and `next_offset`, pick the
packet's priority, skip shared buffers, and transmit via
`__homa_xmit_data`. -/
def xmitLoop (cfg : Config) (now : ℕ) (peer : Peer) (rpcId : ℕ)
    (m : MessageOut) (net : NetState) : MessageOut × NetState × Bool :=
  if _hl : m.next_offset < m.granted ∧ m.nextIdx < m.packets.length then
    let skb := m.packets.getD m.nextIdx default
    if throttleCond cfg now m net then
      (m,
       { net with
         throttled := homa_add_to_throttled (throttleEntry rpcId m)
           net.throttled },
       true)
    else if skb.shared then
      xmitLoop cfg now peer rpcId (advanceMsg m) net
    else
      let r := __homa_xmit_data cfg peer.cutoff_version now
          (taggedPacket peer m skb) net.link_idle_time
      xmitLoop cfg now peer rpcId
        { advanceMsg m with packets := m.packets.set m.nextIdx r.skb }
        { net with link_idle_time := r.idle, log := net.log ++ [r.ev] }
  else (m, net, false)
termination_by m.packets.length - m.nextIdx
decreasing_by
  all_goals simp only [advanceMsg, List.length_set]; omega

/-- `homa_xmit_data`: run the send loop; the `Bool` of the result is `true`
exactly when the function returned through the throttle path. -/
def homa_xmit_data (cfg : Config) (now : ℕ) (peer : Peer) (rpcId : ℕ)
    (m : MessageOut) (net : NetState) : MessageOut × NetState × Bool :=
  xmitLoop cfg now peer rpcId m net

/-- The walk of `homa_resend_data` over the packet list: packets entirely
before `start` are passed over, the walk breaks at the first packet with
`offset ≥ end`, shared buffers are skipped, and every other packet is marked
`retransmit = 1`, tagged with the caller's priority, and handed to
`__homa_xmit_data`.  Returns the updated packet list together with the
updated network state. -/
def resendWalk (cfg : Config) (now : ℕ) (peer : Peer)
    (start stop : ℤ) (priority : ℕ) :
    List Packet → NetState → List Packet × NetState
  | [], net => ([], net)
  | skb :: rest, net =>
      if (skb.offset : ℤ) + (HOMA_MAX_DATA_PER_PACKET : ℤ) ≤ start then
        let r := resendWalk cfg now peer start stop priority rest net
        (skb :: r.1, r.2)
      else if (skb.offset : ℤ) ≥ stop then (skb :: rest, net)
      else if skb.shared then
        let r := resendWalk cfg now peer start stop priority rest net
        (skb :: r.1, r.2)
      else
        let x := __homa_xmit_data cfg peer.cutoff_version now
            { skb with retransmit := true, priority := priority }
            net.link_idle_time
        let r := resendWalk cfg now peer start stop priority rest
            { net with link_idle_time := x.idle, log := net.log ++ [x.ev] }
        (x.skb :: r.1, r.2)

/-- `homa_resend_data`: retransmit the packets of `m` covering byte range
`[start, stop)` at the given priority.  Only the packet buffers and the
network state are touched. -/
def homa_resend_data (cfg : Config) (now : ℕ) (peer : Peer)
    (m : MessageOut) (start stop : ℤ) (priority : ℕ) (net : NetState) :
    MessageOut × NetState :=
  let r := resendWalk cfg now peer start stop priority m.packets net
  ({ m with packets := r.1 }, r.2)

/-! ## Facts about the packet-building loop -/

lemma buildPackets_length (len uns cut dp sp id : ℕ) (bl : ℕ) :
    (buildPackets len uns cut dp sp id bl).length = (bl + 1399) / 1400 := by
  induction bl using Nat.strong_induction_on with
  | _ bl ih =>
    rw [buildPackets]
    split
    · rename_i hb
      simp only [List.length_cons,
        ih (bl - HOMA_MAX_DATA_PER_PACKET)
          (by simp only [HOMA_MAX_DATA_PER_PACKET]; omega)]
      simp only [HOMA_MAX_DATA_PER_PACKET]
      omega
    · rename_i hb
      simp only [List.length_nil]
      omega

set_option maxRecDepth 4000 in
lemma buildPackets_getElem? (len uns cut dp sp id : ℕ) (bl i : ℕ)
    (hi : i < (buildPackets len uns cut dp sp id bl).length) :
    (buildPackets len uns cut dp sp id bl)[i]? =
      some { sport := sp, dport := dp, id := id, message_length := len,
             offset := len - (bl - 1400 * i),
             unscheduled := uns, cutoff_version := cut, retransmit := false,
             size := min 1400 (bl - 1400 * i), priority := 0,
             shared := false } := by
  induction bl using Nat.strong_induction_on generalizing i with
  | _ bl ih =>
    rw [buildPackets_length] at hi
    by_cases hb : 0 < bl
    · rw [buildPackets, dif_pos hb]
      cases i with
      | zero =>
        simp only [List.getElem?_cons_zero, Option.some.injEq,
          HOMA_MAX_DATA_PER_PACKET, Packet.mk.injEq]
        exact ⟨trivial, trivial, trivial, trivial, by omega, trivial,
          trivial, trivial, by omega, trivial, trivial⟩
      | succ i =>
        simp only [List.getElem?_cons_succ]
        rw [ih (bl - HOMA_MAX_DATA_PER_PACKET)
          (by simp only [HOMA_MAX_DATA_PER_PACKET]; omega) i
          (by rw [buildPackets_length]
              simp only [HOMA_MAX_DATA_PER_PACKET]
              omega)]
        simp only [HOMA_MAX_DATA_PER_PACKET, Option.some.injEq,
          Packet.mk.injEq]
        exact ⟨trivial, trivial, trivial, trivial, by omega, trivial,
          trivial, trivial, by omega, trivial, trivial⟩
    · omega

/-- `getD` agrees with `getElem` inside the bounds (the send loop only
dereferences `next_packet` under its guard). -/
lemma Packet_getD_eq_getElem (l : List Packet) (i : ℕ) (h : i < l.length) :
    l.getD i default = l[i] := by
  rw [List.getD_eq_getElem?_getD, List.getElem?_eq_getElem h]
  rfl

/-! ## Facts about the throttled list -/

lemma mem_throttleInsert (x rpc : TRpc) (l : List TRpc)
    (hx : x ∈ throttleInsert rpc l) : x = rpc ∨ x ∈ l := by
  induction l with
  | nil => simpa [throttleInsert] using hx
  | cons c rest ih =>
    rw [throttleInsert] at hx
    split at hx
    · rcases List.mem_cons.mp hx with h | h
      · exact Or.inl h
      · exact Or.inr h
    · rcases List.mem_cons.mp hx with h | h
      · exact Or.inr (h ▸ List.mem_cons_self c rest)
      · rcases ih h with h' | h'
        · exact Or.inl h'
        · exact Or.inr (List.mem_cons_of_mem c h')

lemma self_mem_throttleInsert (rpc : TRpc) (l : List TRpc) :
    rpc ∈ throttleInsert rpc l := by
  induction l with
  | nil => simp [throttleInsert]
  | cons c rest ih =>
    rw [throttleInsert]
    split
    · exact List.mem_cons_self _ _
    · exact List.mem_cons_of_mem c ih

lemma throttleInsert_sorted (rpc : TRpc) (l : List TRpc)
    (hl : l.Pairwise (fun a b => a.rem ≤ b.rem)) :
    (throttleInsert rpc l).Pairwise (fun a b => a.rem ≤ b.rem) := by
  induction l with
  | nil => simp [throttleInsert]
  | cons c rest ih =>
    rw [List.pairwise_cons] at hl
    rw [throttleInsert]
    split
    · rename_i hlt
      refine List.pairwise_cons.mpr ⟨?_, List.pairwise_cons.mpr hl⟩
      intro x hx
      rcases List.mem_cons.mp hx with h | h
      · subst h; omega
      · have := hl.1 x h
        omega
    · rename_i hge
      refine List.pairwise_cons.mpr ⟨?_, ih hl.2⟩
      intro x hx
      rcases mem_throttleInsert x rpc rest hx with h | h
      · subst h; omega
      · exact hl.1 x h

lemma homa_add_to_throttled_sorted (rpc : TRpc) (l : List TRpc)
    (hl : l.Pairwise (fun a b => a.rem ≤ b.rem)) :
    (homa_add_to_throttled rpc l).Pairwise (fun a b => a.rem ≤ b.rem) := by
  rw [homa_add_to_throttled]
  split
  · exact hl
  · exact throttleInsert_sorted rpc l hl

lemma foldl_add_to_throttled_sorted (rs : List TRpc) (l : List TRpc)
    (hl : l.Pairwise (fun a b => a.rem ≤ b.rem)) :
    (rs.foldl (fun acc r => homa_add_to_throttled r acc) l).Pairwise
      (fun a b => a.rem ≤ b.rem) := by
  induction rs generalizing l with
  | nil => exact hl
  | cons r rest ih =>
    exact ih (homa_add_to_throttled r l) (homa_add_to_throttled_sorted r l hl)

lemma any_id_homa_add_to_throttled (rpc : TRpc) (l : List TRpc) :
    (homa_add_to_throttled rpc l).any (fun r => r.id = rpc.id) = true := by
  rw [homa_add_to_throttled]
  split
  · rename_i h; exact h
  · rw [List.any_eq_true]
    exact ⟨rpc, self_mem_throttleInsert rpc l, by simp⟩

lemma homa_add_to_throttled_idem (rpc : TRpc) (l : List TRpc) :
    homa_add_to_throttled rpc (homa_add_to_throttled rpc l) =
      homa_add_to_throttled rpc l := by
  conv_lhs => rw [homa_add_to_throttled]
  rw [if_pos (any_id_homa_add_to_throttled rpc l)]

/-! ## Step equations for the send loop -/

lemma xmitLoop_eq_throttle (cfg : Config) (now : ℕ) (peer : Peer)
    (rid : ℕ) (m : MessageOut) (net : NetState)
    (h1 : m.next_offset < m.granted ∧ m.nextIdx < m.packets.length)
    (h2 : throttleCond cfg now m net) :
    xmitLoop cfg now peer rid m net =
      (m,
       { net with
         throttled := homa_add_to_throttled (throttleEntry rid m)
           net.throttled },
       true) := by
  rw [xmitLoop, dif_pos h1, if_pos h2]

lemma xmitLoop_eq_shared (cfg : Config) (now : ℕ) (peer : Peer)
    (rid : ℕ) (m : MessageOut) (net : NetState)
    (h1 : m.next_offset < m.granted ∧ m.nextIdx < m.packets.length)
    (h2 : ¬ throttleCond cfg now m net)
    (hsh : (m.packets.getD m.nextIdx default).shared = true) :
    xmitLoop cfg now peer rid m net =
      xmitLoop cfg now peer rid (advanceMsg m) net := by
  rw [xmitLoop, dif_pos h1, if_neg h2, if_pos hsh]

lemma xmitLoop_eq_send (cfg : Config) (now : ℕ) (peer : Peer)
    (rid : ℕ) (m : MessageOut) (net : NetState)
    (h1 : m.next_offset < m.granted ∧ m.nextIdx < m.packets.length)
    (h2 : ¬ throttleCond cfg now m net)
    (hsh : (m.packets.getD m.nextIdx default).shared = false) :
    xmitLoop cfg now peer rid m net =
      xmitLoop cfg now peer rid
        { advanceMsg m with
          packets := m.packets.set m.nextIdx
            (__homa_xmit_data cfg peer.cutoff_version now
              (taggedPacket peer m (m.packets.getD m.nextIdx default))
              net.link_idle_time).skb }
        { net with
          link_idle_time := (__homa_xmit_data cfg peer.cutoff_version now
              (taggedPacket peer m (m.packets.getD m.nextIdx default))
              net.link_idle_time).idle
          log := net.log ++ [(__homa_xmit_data cfg peer.cutoff_version now
              (taggedPacket peer m (m.packets.getD m.nextIdx default))
              net.link_idle_time).ev] } := by
  rw [xmitLoop, dif_pos h1, if_neg h2]
  rw [if_neg (by simpa using hsh)]

lemma xmitLoop_eq_done (cfg : Config) (now : ℕ) (peer : Peer)
    (rid : ℕ) (m : MessageOut) (net : NetState)
    (h1 : ¬(m.next_offset < m.granted ∧ m.nextIdx < m.packets.length)) :
    xmitLoop cfg now peer rid m net = (m, net, false) := by
  rw [xmitLoop, dif_neg h1]

/-- Combined loop invariants of `homa_xmit_data`: scalar message fields and
the packet count are preserved; `nextIdx` only grows; `next_offset` advances
by exactly `HOMA_MAX_DATA_PER_PACKET` per consumed packet; when the loop did
not return through the throttle path, its guard is false on the final state;
and `nextIdx` stays within the packet list. -/
lemma xmitLoop_invariants (cfg : Config) (now : ℕ) (peer : Peer) (rid : ℕ)
    (m : MessageOut) (net : NetState) :
    (xmitLoop cfg now peer rid m net).1.length = m.length ∧
    (xmitLoop cfg now peer rid m net).1.granted = m.granted ∧
    (xmitLoop cfg now peer rid m net).1.unscheduled = m.unscheduled ∧
    (xmitLoop cfg now peer rid m net).1.sched_priority = m.sched_priority ∧
    (xmitLoop cfg now peer rid m net).1.packets.length =
      m.packets.length ∧
    m.nextIdx ≤ (xmitLoop cfg now peer rid m net).1.nextIdx ∧
    (xmitLoop cfg now peer rid m net).1.next_offset +
        HOMA_MAX_DATA_PER_PACKET * m.nextIdx =
      m.next_offset +
        HOMA_MAX_DATA_PER_PACKET * (xmitLoop cfg now peer rid m net).1.nextIdx ∧
    ((xmitLoop cfg now peer rid m net).2.2 = false →
      ¬((xmitLoop cfg now peer rid m net).1.next_offset <
          (xmitLoop cfg now peer rid m net).1.granted ∧
        (xmitLoop cfg now peer rid m net).1.nextIdx <
          (xmitLoop cfg now peer rid m net).1.packets.length)) ∧
    (m.nextIdx ≤ m.packets.length →
      (xmitLoop cfg now peer rid m net).1.nextIdx ≤
        (xmitLoop cfg now peer rid m net).1.packets.length) := by
  induction m, net using xmitLoop.induct cfg now peer rid with
  | case1 m net h1 h2 =>
    rw [xmitLoop_eq_throttle cfg now peer rid m net h1 h2]
    simp
  | case2 m net h1 skb h2 hsh ih =>
    rw [xmitLoop_eq_shared cfg now peer rid m net h1 h2 hsh]
    simp only [advanceMsg, HOMA_MAX_DATA_PER_PACKET] at ih ⊢
    obtain ⟨i1, i2, i3, i4, i5, i6, i7, i8, i9⟩ := ih
    refine ⟨i1, i2, i3, i4, i5, by omega, by omega, i8, by omega⟩
  | case3 m net h1 skb h2 hsh r ih =>
    rw [xmitLoop_eq_send cfg now peer rid m net h1 h2
      (by simp only [Bool.not_eq_true] at hsh; exact hsh)]
    unfold r skb at ih
    simp only [advanceMsg, HOMA_MAX_DATA_PER_PACKET, List.length_set]
      at ih ⊢
    obtain ⟨i1, i2, i3, i4, i5, i6, i7, i8, i9⟩ := ih
    refine ⟨i1, i2, i3, i4, by omega, by omega, by omega, i8, by omega⟩
  | case4 m net h1 =>
    rw [xmitLoop_eq_done cfg now peer rid m net h1]
    exact ⟨rfl, rfl, rfl, rfl, rfl, le_refl _, rfl, fun _ => h1,
      fun h => h⟩

/-- A message whose remaining bytes are at or below `throttle_min_bytes` is
never enqueued on the throttled list by the send loop, and the loop never
returns through the throttle path for it. -/
lemma xmitLoop_small_bypass (cfg : Config) (now : ℕ) (peer : Peer)
    (rid : ℕ) (m : MessageOut) (net : NetState) :
    (m.length : ℤ) - (m.next_offset : ℤ) ≤ (cfg.throttle_min_bytes : ℤ) →
    (xmitLoop cfg now peer rid m net).2.1.throttled = net.throttled ∧
    (xmitLoop cfg now peer rid m net).2.2 = false := by
  induction m, net using xmitLoop.induct cfg now peer rid with
  | case1 m net h1 h2 =>
    intro hsmall
    obtain ⟨hr, -, -⟩ := h2
    omega
  | case2 m net h1 skb h2 hsh ih =>
    intro hsmall
    rw [xmitLoop_eq_shared cfg now peer rid m net h1 h2 hsh]
    refine ih ?_
    simp only [advanceMsg, HOMA_MAX_DATA_PER_PACKET]
    push_cast
    omega
  | case3 m net h1 skb h2 hsh r ih =>
    intro hsmall
    rw [xmitLoop_eq_send cfg now peer rid m net h1 h2
      (by simp only [Bool.not_eq_true] at hsh; exact hsh)]
    unfold r skb at ih
    refine ih ?_
    simp only [advanceMsg, HOMA_MAX_DATA_PER_PACKET]
    push_cast
    omega
  | case4 m net h1 =>
    intro hsmall
    rw [xmitLoop_eq_done cfg now peer rid m net h1]
    exact ⟨rfl, rfl⟩

/-- Priority selection invariant of the send loop: when the message's
`next_offset` tracks `nextIdx` and packet `i` carries offset
`i × HOMA_MAX_DATA_PER_PACKET` (as `homa_message_out_init` builds them),
every packet the loop hands to IP is tagged with the peer's unscheduled
priority when its offset is below `unscheduled`, and with `sched_priority`
otherwise — and has its `retransmit` flag cleared. -/
lemma xmitLoop_log_priority (cfg : Config) (now : ℕ) (peer : Peer)
    (rid : ℕ) (u l sp : ℕ) (m : MessageOut) (net : NetState) :
    m.unscheduled = u → m.length = l → m.sched_priority = sp →
    m.next_offset = HOMA_MAX_DATA_PER_PACKET * m.nextIdx →
    (∀ i, i < m.packets.length →
        (m.packets.getD i default).offset = HOMA_MAX_DATA_PER_PACKET * i) →
    (∀ e ∈ net.log, e.priority =
        (if e.offset < u then peer.unsched_priority l else sp) ∧
        e.retransmit = false) →
    ∀ e ∈ (xmitLoop cfg now peer rid m net).2.1.log,
      e.priority = (if e.offset < u then peer.unsched_priority l else sp) ∧
      e.retransmit = false := by
  induction m, net using xmitLoop.induct cfg now peer rid with
  | case1 m net h1 h2 =>
    intro hu hl hsp hsync hoff hlog
    rw [xmitLoop_eq_throttle cfg now peer rid m net h1 h2]
    exact hlog
  | case2 m net h1 skb h2 hsh ih =>
    intro hu hl hsp hsync hoff hlog
    rw [xmitLoop_eq_shared cfg now peer rid m net h1 h2 hsh]
    refine ih hu hl hsp ?_ ?_ hlog
    · simp only [advanceMsg, HOMA_MAX_DATA_PER_PACKET] at hsync ⊢
      omega
    · intro i hi
      exact hoff i (by simpa [advanceMsg] using hi)
  | case3 m net h1 skb h2 hsh r ih =>
    intro hu hl hsp hsync hoff hlog
    rw [xmitLoop_eq_send cfg now peer rid m net h1 h2
      (by simp only [Bool.not_eq_true] at hsh; exact hsh)]
    unfold r skb at ih
    refine ih hu hl hsp ?_ ?_ ?_
    · simp only [advanceMsg, HOMA_MAX_DATA_PER_PACKET] at hsync ⊢
      omega
    · intro i hi
      simp only [advanceMsg, List.length_set] at hi ⊢
      rw [Packet_getD_eq_getElem _ i (by simpa [List.length_set] using hi),
        List.getElem_set]
      split
      · rename_i hik
        subst hik
        have h0 := hoff m.nextIdx h1.2
        rw [Packet_getD_eq_getElem _ _ h1.2] at h0
        simp only [__homa_xmit_data, taggedPacket]
        rw [Packet_getD_eq_getElem _ _ h1.2]
        exact h0
      · have hi' : i < m.packets.length := by
          simpa [List.length_set] using hi
        have h0 := hoff i hi'
        rw [Packet_getD_eq_getElem _ _ hi'] at h0
        exact h0
    · intro e he
      rcases List.mem_append.mp he with hold | hnew
      · exact hlog e hold
      · have hev : e = (__homa_xmit_data cfg peer.cutoff_version now
            (taggedPacket peer m (m.packets.getD m.nextIdx default))
            net.link_idle_time).ev := by
          simpa using hnew
        subst hev
        have hoffk := hoff m.nextIdx h1.2
        simp only [__homa_xmit_data, taggedPacket, sendPriority]
        constructor
        · subst hu hl hsp
          simp only [hoffk, hsync]
        · trivial
  | case4 m net h1 =>
    intro hu hl hsp hsync hoff hlog
    rw [xmitLoop_eq_done cfg now peer rid m net h1]
    exact hlog

/-- On success (`len ≤ max_message_length`) the init path returns exactly
this message. -/
lemma homa_message_out_init_ok (cfg : Config) (len cut dp sp id : ℕ)
    (h : len ≤ cfg.max_message_length) :
    homa_message_out_init cfg len cut dp sp id = Except.ok
      { length := len,
        packets := buildPackets len cfg.rtt_bytes cut dp sp id len,
        nextIdx := 0, next_offset := 0, unscheduled := cfg.rtt_bytes,
        granted := if cfg.rtt_bytes > len then len else cfg.rtt_bytes,
        sched_priority := 0 } := by
  rw [homa_message_out_init, if_neg (by omega)]

/-! ## Facts about the retransmit walk -/

/-- The range test of `homa_resend_data`, as a Boolean predicate on a packet:
not shared, and `[offset, offset + HOMA_MAX_DATA_PER_PACKET)` intersects
`[start, stop)`. -/
def resendRange (start stop : ℤ) (p : Packet) : Bool :=
  !p.shared
    && decide (start < (p.offset : ℤ) + (HOMA_MAX_DATA_PER_PACKET : ℤ))
    && decide ((p.offset : ℤ) < stop)

/-- What `homa_resend_data` hands to IP: exactly the packets passing
`resendRange`, in list order, each tagged `retransmit = 1` with the caller's
priority — provided packet offsets are strictly increasing along the list
(which terminates the walk at the first packet with `offset ≥ stop`). -/
lemma resendWalk_log (cfg : Config) (now : ℕ) (peer : Peer)
    (start stop : ℤ) (priority : ℕ) :
    ∀ (pkts : List Packet) (net : NetState),
    pkts.Pairwise (fun a b => a.offset < b.offset) →
    (resendWalk cfg now peer start stop priority pkts net).2.log =
      net.log ++ (pkts.filter (resendRange start stop)).map
        (fun p =>
          { offset := p.offset, priority := priority, retransmit := true }) := by
  intro pkts
  induction pkts with
  | nil =>
    intro net hpw
    simp [resendWalk]
  | cons skb rest ih =>
    intro net hpw
    rw [List.pairwise_cons] at hpw
    rw [resendWalk]
    by_cases hb : (skb.offset : ℤ) + (HOMA_MAX_DATA_PER_PACKET : ℤ) ≤ start
    · rw [if_pos hb]
      have hf : resendRange start stop skb = false := by
        have hns : ¬ start < (skb.offset : ℤ) + (HOMA_MAX_DATA_PER_PACKET : ℤ) :=
          not_lt.mpr hb
        simp [resendRange, hns]
      show (resendWalk cfg now peer start stop priority rest net).2.log = _
      rw [ih net hpw.2, List.filter_cons, hf]
      simp
    · rw [if_neg hb]
      by_cases hs : (skb.offset : ℤ) ≥ stop
      · rw [if_pos hs]
        have hall : (skb :: rest).filter (resendRange start stop) = [] := by
          rw [List.filter_eq_nil_iff]
          intro p hp
          rcases List.mem_cons.mp hp with hpe | hpr
          · subst hpe
            have hns : ¬ (p.offset : ℤ) < stop := not_lt.mpr hs
            simp [resendRange, hns]
          · have hlt : skb.offset < p.offset := hpw.1 p hpr
            have hns : ¬ (p.offset : ℤ) < stop := by
              simp only [not_lt]
              omega
            simp [resendRange, hns]
        rw [hall]
        simp
      · rw [if_neg hs]
        by_cases hsh : skb.shared = true
        · rw [if_pos hsh]
          have hf : resendRange start stop skb = false := by
            simp [resendRange, hsh]
          show (resendWalk cfg now peer start stop priority rest net).2.log = _
          rw [ih net hpw.2, List.filter_cons, hf]
          simp
        · rw [if_neg hsh]
          have ht : resendRange start stop skb = true := by
            simp only [resendRange, Bool.and_eq_true, Bool.not_eq_true',
              decide_eq_true_eq]
            refine ⟨⟨by simpa using hsh, by omega⟩, by omega⟩
          show (resendWalk cfg now peer start stop priority rest
            { net with
              link_idle_time := (__homa_xmit_data cfg peer.cutoff_version now
                { skb with retransmit := true, priority := priority }
                net.link_idle_time).idle
              log := net.log ++ [(__homa_xmit_data cfg peer.cutoff_version now
                { skb with retransmit := true, priority := priority }
                net.link_idle_time).ev] }).2.log = _
          rw [ih _ hpw.2, List.filter_cons, ht]
          simp [__homa_xmit_data]

/-! ## Concrete fixtures (mirroring the driver's unit-test setup:
`rtt_bytes = 10000`, `cycles_per_kbyte = 1000`, `link_idle_time = 11000`,
`get_cycles() = 10000`, peer unscheduled-priority table answering 6) -/

def cfg0 : Config :=
  { max_message_length := 1000000, rtt_bytes := 10000,
    throttle_min_bytes := 1000, max_nic_queue_cycles := 3000,
    cycles_per_kbyte := 1000, dont_throttle := false }

def cfgNT : Config :=
  { cfg0 with dont_throttle := true }

def peer6 : Peer :=
  { cutoff_version := 0, unsched_priority := fun _ => 6 }

def net0 : NetState :=
  { link_idle_time := 11000, throttled := [], log := [] }

def initMsg (cfg : Config) (len : ℕ) : MessageOut :=
  match homa_message_out_init cfg len 0 99 40000 1 with
  | .ok m => m
  | .error _ => default

def msg3000 : MessageOut := initMsg cfg0 3000

def msg0 : MessageOut := initMsg cfg0 0

def msg200 : MessageOut := initMsg cfg0 200

def msg6000 : MessageOut := initMsg cfg0 6000

def msg20000 : MessageOut := initMsg cfg0 20000

/-- The priority-selection scenario message: len 6000 with `unscheduled`
lowered to 2000, `sched_priority` 2, `granted` 5000 (the receive path owns
these fields; the unit test sets them the same way). -/
def msg6000b : MessageOut :=
  { msg6000 with unscheduled := 2000, sched_priority := 2, granted := 5000 }

def msg5000 : MessageOut := initMsg cfg0 5000

/-- len-5000 message whose second and third packet buffers are still held by
a prior in-flight transmission (`skb_shared`). -/
def msg5000shared : MessageOut :=
  { msg5000 with
    packets := (msg5000.packets.set 1
        { msg5000.packets.getD 1 default with shared := true }).set 2
      { msg5000.packets.getD 2 default with shared := true } }

def msg10000 : MessageOut := initMsg cfg0 10000

/-! ## Claims -/

/-- C1 (counterexample): for `Init(len = 3000)` with `RTT_BYTES = 10000` the
init succeeds, but `unscheduled = 10000 ≠ min(3000, 10000)` and the claimed
invariant `unscheduled ≤ granted ≤ length` fails (`granted = 3000`); the
driver's own unit test records the same packets (`unscheduled 10000` on a
3000-byte message). -/
theorem C1_counterexample :
    homa_message_out_init cfg0 3000 0 99 40000 1 = Except.ok msg3000 ∧
    msg3000.unscheduled = 10000 ∧
    msg3000.unscheduled ≠ min 3000 cfg0.rtt_bytes ∧
    ¬(msg3000.unscheduled ≤ msg3000.granted ∧
      msg3000.granted ≤ msg3000.length) := by
  refine ⟨rfl, by decide, by decide, by decide⟩

/-- C1 (amended): for every successful `Init` of a message of length `len`,
`unscheduled` equals `RTT_BYTES` unconditionally and `granted` equals
`min(len, RTT_BYTES)`; hence `granted ≤ length` always holds, and the
data-model invariant `unscheduled ≤ granted ≤ length` holds immediately
after `Init` exactly when `len ≥ RTT_BYTES`. -/
theorem C1_init_unscheduled (cfg : Config) (len cut dp sp id : ℕ)
    (m : MessageOut)
    (hok : homa_message_out_init cfg len cut dp sp id = Except.ok m) :
    m.unscheduled = cfg.rtt_bytes ∧
    m.length = len ∧
    m.granted = min len cfg.rtt_bytes ∧
    m.granted ≤ m.length ∧
    (cfg.rtt_bytes ≤ len →
      m.unscheduled ≤ m.granted ∧ m.granted ≤ m.length) := by
  rw [homa_message_out_init] at hok
  split at hok
  · exact absurd hok (by simp)
  · injection hok with h
    subst h
    refine ⟨rfl, rfl, ?_, ?_, ?_⟩
    · simp only [min_def]
      split <;> split <;> omega
    · simp only []
      split <;> omega
    · intro hge
      constructor
      · simp only []
        split <;> omega
      · simp only []
        split <;> omega

/-- C1 (witness): the amended claim evaluated at `len = 20000`,
`RTT_BYTES = 10000`. -/
theorem C1_witness :
    msg20000.unscheduled = cfg0.rtt_bytes ∧
    msg20000.length = 20000 ∧
    msg20000.granted = min 20000 cfg0.rtt_bytes ∧
    msg20000.granted ≤ msg20000.length ∧
    (cfg0.rtt_bytes ≤ 20000 →
      msg20000.unscheduled ≤ msg20000.granted ∧
      msg20000.granted ≤ msg20000.length) :=
  C1_init_unscheduled cfg0 20000 0 99 40000 1 msg20000 rfl

/-- C2 (counterexample): `Init(len = 0)` succeeds but builds an empty packet
list — there is no zero-length buffer, contradicting the claimed "at least
one" (the build loop `for (bytes_left = len; bytes_left > 0; ...)` never
runs). -/
theorem C2_counterexample :
    homa_message_out_init cfg0 0 0 99 40000 1 = Except.ok msg0 ∧
    msg0.packets.length = 0 ∧
    ¬(1 ≤ msg0.packets.length) := by
  have h : msg0.packets.length = 0 := by
    simp [msg0, initMsg, homa_message_out_init, buildPackets, cfg0]
  exact ⟨rfl, h, by omega⟩

/-- C2 (amended): for every `len ≤ MAX_MESSAGE_LENGTH`, a successful
`Init(len)` produces exactly `ceil(len / MAX_DATA_PER_PACKET)` packet
buffers — which is zero, not one, when `len = 0`; the `i`-th packet's header
offset equals `i × MAX_DATA_PER_PACKET`; and for `len > 0` the last packet's
payload size is `len mod MAX_DATA_PER_PACKET` (or `MAX_DATA_PER_PACKET`
when `len` is a positive multiple). -/
theorem C2_init_packets (cfg : Config) (len cut dp sp id : ℕ)
    (m : MessageOut)
    (hok : homa_message_out_init cfg len cut dp sp id = Except.ok m) :
    m.packets.length =
      (len + HOMA_MAX_DATA_PER_PACKET - 1) / HOMA_MAX_DATA_PER_PACKET ∧
    (∀ i (hi : i < m.packets.length),
      (m.packets.get ⟨i, hi⟩).offset = HOMA_MAX_DATA_PER_PACKET * i) ∧
    (len = 0 → m.packets = []) ∧
    (0 < len → ∀ (hne : m.packets ≠ []),
      (m.packets.getLast hne).size =
        if len % HOMA_MAX_DATA_PER_PACKET = 0 then HOMA_MAX_DATA_PER_PACKET
        else len % HOMA_MAX_DATA_PER_PACKET) := by
  rw [homa_message_out_init] at hok
  split at hok
  · exact absurd hok (by simp)
  · injection hok with h
    subst h
    have hlen : (buildPackets len cfg.rtt_bytes cut dp sp id len).length =
        (len + 1399) / 1400 :=
      buildPackets_length len cfg.rtt_bytes cut dp sp id len
    have hget : ∀ i (hi : i <
          (buildPackets len cfg.rtt_bytes cut dp sp id len).length),
        ((buildPackets len cfg.rtt_bytes cut dp sp id len).get
          ⟨i, hi⟩).offset = 1400 * i ∧
        ((buildPackets len cfg.rtt_bytes cut dp sp id len).get
          ⟨i, hi⟩).size = min 1400 (len - 1400 * i) := by
      intro i hi
      have h? := buildPackets_getElem? len cfg.rtt_bytes cut dp sp id len i hi
      have he : (buildPackets len cfg.rtt_bytes cut dp sp id len)[i]? =
          some ((buildPackets len cfg.rtt_bytes cut dp sp id len).get
            ⟨i, hi⟩) := by
        simp [List.getElem?_eq_getElem hi]
      rw [he] at h?
      have hrec := Option.some.injEq _ _ ▸ h?
      have hco : i < (len + 1399) / 1400 := by rw [← hlen]; exact hi
      have hbound : 1400 * i < len := by omega
      constructor
      · rw [Option.some.inj h?]
        simp only []
        omega
      · rw [Option.some.inj h?]
    refine ⟨?_, ?_, ?_, ?_⟩
    · simp only [hlen, HOMA_MAX_DATA_PER_PACKET]
      omega
    · intro i hi
      simp only [HOMA_MAX_DATA_PER_PACKET]
      exact (hget i hi).1
    · intro h0
      subst h0
      rw [buildPackets]
      simp
    · intro hpos hne
      have hlp : (buildPackets len cfg.rtt_bytes cut dp sp id len).length - 1 <
          (buildPackets len cfg.rtt_bytes cut dp sp id len).length := by
        rw [hlen]
        omega
      have := (hget ((buildPackets len cfg.rtt_bytes cut dp sp id
          len).length - 1) hlp).2
      rw [List.getLast_eq_getElem]
      simp only [List.get_eq_getElem] at this
      rw [this]
      simp only [hlen, HOMA_MAX_DATA_PER_PACKET]
      split <;> omega

/-- C2 (witness): the amended claim evaluated at `len = 3000`: three packets
at offsets 0, 1400, 2800, the last of payload 200. -/
theorem C2_witness :
    msg3000.packets.length =
      (3000 + HOMA_MAX_DATA_PER_PACKET - 1) / HOMA_MAX_DATA_PER_PACKET ∧
    (∀ i (hi : i < msg3000.packets.length),
      (msg3000.packets.get ⟨i, hi⟩).offset = HOMA_MAX_DATA_PER_PACKET * i) ∧
    ((3000 : ℕ) = 0 → msg3000.packets = []) ∧
    ((0 : ℕ) < 3000 → ∀ (hne : msg3000.packets ≠ []),
      (msg3000.packets.getLast hne).size =
        if 3000 % HOMA_MAX_DATA_PER_PACKET = 0 then HOMA_MAX_DATA_PER_PACKET
        else 3000 % HOMA_MAX_DATA_PER_PACKET) :=
  C2_init_packets cfg0 3000 0 99 40000 1 msg3000 rfl

/-- C3: in the send loop, whenever the guard holds and the throttle test
(remaining bytes above `throttle_min_bytes`, NIC queue beyond tolerance,
throttling enabled) passes, the RPC is added to the throttled list and the
function returns without sending that packet; a message whose remaining
bytes are at or below `throttle_min_bytes` is transmitted without ever
touching the throttled list.  Concretely (unit-test clock:
`link_idle_time = 11000`, `max_nic_queue_cycles = 3000`, `now = 10000`): a
len-6000 message emits the packets at offsets 0 and 1400, then joins the
throttled list at `next_offset = 2800`; a len-200 message sends its single
packet immediately and the throttled list stays empty. -/
theorem C3_throttle_check :
    (∀ (cfg : Config) (now : ℕ) (peer : Peer) (rid : ℕ)
        (m : MessageOut) (net : NetState),
      m.next_offset < m.granted ∧ m.nextIdx < m.packets.length →
      throttleCond cfg now m net →
      homa_xmit_data cfg now peer rid m net =
        (m,
         { net with
           throttled := homa_add_to_throttled (throttleEntry rid m)
             net.throttled },
         true)) ∧
    (∀ (cfg : Config) (now : ℕ) (peer : Peer) (rid : ℕ)
        (m : MessageOut) (net : NetState),
      (m.length : ℤ) - (m.next_offset : ℤ) ≤ (cfg.throttle_min_bytes : ℤ) →
      (homa_xmit_data cfg now peer rid m net).2.1.throttled =
        net.throttled ∧
      (homa_xmit_data cfg now peer rid m net).2.2 = false) ∧
    ((homa_xmit_data cfg0 10000 peer6 1 msg6000 net0).2.1.log =
      [{ offset := 0, priority := 6, retransmit := false },
       { offset := 1400, priority := 6, retransmit := false }] ∧
     (homa_xmit_data cfg0 10000 peer6 1 msg6000 net0).1.next_offset = 2800 ∧
     (homa_xmit_data cfg0 10000 peer6 1 msg6000 net0).2.1.throttled =
      [{ id := 1, length := 6000, next_offset := 2800 }] ∧
     (homa_xmit_data cfg0 10000 peer6 1 msg6000 net0).2.2 = true) ∧
    ((homa_xmit_data cfg0 10000 peer6 1 msg200 net0).2.1.log =
      [{ offset := 0, priority := 6, retransmit := false }] ∧
     (homa_xmit_data cfg0 10000 peer6 1 msg200 net0).2.1.throttled = [] ∧
     (homa_xmit_data cfg0 10000 peer6 1 msg200 net0).2.2 = false) := by
  refine ⟨?_, ?_, ?_, ?_⟩
  · intro cfg now peer rid m net h1 h2
    exact xmitLoop_eq_throttle cfg now peer rid m net h1 h2
  · intro cfg now peer rid m net hsmall
    exact xmitLoop_small_bypass cfg now peer rid m net hsmall
  · refine ⟨?_, ?_, ?_, ?_⟩ <;>
      simp [homa_xmit_data, xmitLoop, msg6000, initMsg,
        homa_message_out_init, buildPackets, HOMA_MAX_DATA_PER_PACKET,
        throttleCond, cfg0, net0, peer6, advanceMsg, taggedPacket,
        sendPriority, __homa_xmit_data, homa_update_idle_time,
        HOMA_MAX_IPV4_HEADER, HOMA_VLAN_HEADER, HOMA_ETH_OVERHEAD,
        DATA_HEADER_BYTES, homa_add_to_throttled, throttleInsert,
        throttleEntry, TRpc.rem]
  · refine ⟨?_, ?_, ?_⟩ <;>
      simp [homa_xmit_data, xmitLoop, msg200, initMsg,
        homa_message_out_init, buildPackets, HOMA_MAX_DATA_PER_PACKET,
        throttleCond, cfg0, net0, peer6, advanceMsg, taggedPacket,
        sendPriority, __homa_xmit_data, homa_update_idle_time,
        HOMA_MAX_IPV4_HEADER, HOMA_VLAN_HEADER, HOMA_ETH_OVERHEAD,
        DATA_HEADER_BYTES, homa_add_to_throttled, throttleInsert,
        throttleEntry, TRpc.rem]

/-- C3 (witness): the throttle branch taken at the concrete state the
len-6000 scenario reaches (`next_offset = 2800`, `link_idle_time = 14064`),
and the small-message bypass at the len-200 message. -/
theorem C3_witness :
    homa_xmit_data cfg0 10000 peer6 1
        { msg6000 with nextIdx := 2, next_offset := 2800 }
        { net0 with link_idle_time := 14064 } =
      ({ msg6000 with nextIdx := 2, next_offset := 2800 },
       { net0 with
         link_idle_time := 14064
         throttled := homa_add_to_throttled
           (throttleEntry 1 { msg6000 with nextIdx := 2, next_offset := 2800 })
           net0.throttled },
       true) ∧
    (homa_xmit_data cfg0 10000 peer6 1 msg200 net0).2.1.throttled =
      net0.throttled := by
  constructor
  · refine C3_throttle_check.1 cfg0 10000 peer6 1
      { msg6000 with nextIdx := 2, next_offset := 2800 }
      { net0 with link_idle_time := 14064 } ?_ ?_
    · constructor
      · show 2800 < msg6000.granted
        simp [msg6000, initMsg, homa_message_out_init, buildPackets, cfg0,
          HOMA_MAX_DATA_PER_PACKET]
      · show 2 < msg6000.packets.length
        simp [msg6000, initMsg, homa_message_out_init, buildPackets, cfg0,
          HOMA_MAX_DATA_PER_PACKET]
    · refine ⟨?_, ?_, ?_⟩
      · show (6000 : ℤ) - (2800 : ℤ) > (cfg0.throttle_min_bytes : ℤ)
        simp [cfg0, msg6000, initMsg, homa_message_out_init, buildPackets,
          HOMA_MAX_DATA_PER_PACKET]
      · show 10000 + cfg0.max_nic_queue_cycles < 14064
        simp [cfg0]
      · rfl
  · exact (C3_throttle_check.2.1 cfg0 10000 peer6 1 msg200 net0
      (by simp [msg200, initMsg, homa_message_out_init, buildPackets, cfg0,
        HOMA_MAX_DATA_PER_PACKET])).1

/-- C4: for every packet the send loop hands to IP, the priority is the
peer's unscheduled priority for the message length when the packet's offset
is below `unscheduled`, and `sched_priority` otherwise (stated for messages
whose `next_offset` tracks `nextIdx` and whose packet `i` sits at offset
`i × MAX_DATA_PER_PACKET`, which `Init` guarantees).  Concretely, for
len 6000, `unscheduled = 2000`, `sched_priority = 2`, peer table answering
6, the four sends are P6@0, P6@1400, P2@2800, P2@4200. -/
theorem C4_priority_selection :
    (∀ (cfg : Config) (now : ℕ) (peer : Peer) (rid : ℕ)
        (m : MessageOut) (net : NetState),
      m.next_offset = HOMA_MAX_DATA_PER_PACKET * m.nextIdx →
      (∀ i, i < m.packets.length →
        (m.packets.getD i default).offset = HOMA_MAX_DATA_PER_PACKET * i) →
      net.log = [] →
      ∀ e ∈ (homa_xmit_data cfg now peer rid m net).2.1.log,
        e.priority = (if e.offset < m.unscheduled then
            peer.unsched_priority m.length
          else m.sched_priority) ∧
        e.retransmit = false) ∧
    (homa_xmit_data cfgNT 10000 peer6 1 msg6000b net0).2.1.log =
      [{ offset := 0, priority := 6, retransmit := false },
       { offset := 1400, priority := 6, retransmit := false },
       { offset := 2800, priority := 2, retransmit := false },
       { offset := 4200, priority := 2, retransmit := false }] := by
  constructor
  · intro cfg now peer rid m net hsync hoff hlog
    refine xmitLoop_log_priority cfg now peer rid m.unscheduled m.length
      m.sched_priority m net rfl rfl rfl hsync hoff ?_
    rw [hlog]
    intro e he
    exact absurd he (List.not_mem_nil e)
  · simp [homa_xmit_data, xmitLoop, msg6000b, msg6000, initMsg,
      homa_message_out_init, buildPackets, HOMA_MAX_DATA_PER_PACKET,
      throttleCond, cfgNT, cfg0, net0, peer6, advanceMsg, taggedPacket,
      sendPriority, __homa_xmit_data, homa_update_idle_time,
      HOMA_MAX_IPV4_HEADER, HOMA_VLAN_HEADER, HOMA_ETH_OVERHEAD,
      DATA_HEADER_BYTES, List.get_eq_getElem, List.getElem_cons_succ,
      List.getElem_cons_zero]

/-- C4 (witness): the general statement applied to the concrete
priority-selection scenario message: every emitted packet of `msg6000b`
satisfies the offset-based priority rule. -/
theorem C4_witness :
    ∀ e ∈ (homa_xmit_data cfgNT 10000 peer6 1 msg6000b net0).2.1.log,
      e.priority = (if e.offset < msg6000b.unscheduled then
          peer6.unsched_priority msg6000b.length
        else msg6000b.sched_priority) ∧
      e.retransmit = false := by
  refine C4_priority_selection.1 cfgNT 10000 peer6 1 msg6000b net0 rfl ?_ rfl
  intro i hi
  have hi' : i < 5 := by
    simpa [msg6000b, msg6000, initMsg, homa_message_out_init, buildPackets,
      HOMA_MAX_DATA_PER_PACKET, cfg0] using hi
  interval_cases i <;>
    simp [msg6000b, msg6000, initMsg, homa_message_out_init, buildPackets,
      HOMA_MAX_DATA_PER_PACKET, cfg0, List.getD]

/-- C5: each iteration of the send loop advances `next_offset` by exactly
`MAX_DATA_PER_PACKET` — one packet consumed per `MAX_DATA_PER_PACKET` of
offset, shared (skipped) buffers included; consequently, when a freshly
initialized message (granted its full length) drains without throttling,
`next_offset` ends at `ceil(length / MAX_DATA_PER_PACKET) ×
MAX_DATA_PER_PACKET`, which may exceed `length`.  Concretely, a len-5000
message whose second and third buffers are externally held emits only
offsets 0 and 4200 yet finishes with `next_offset = 5600 > 5000`. -/
theorem C5_offset_advance :
    (∀ (cfg : Config) (now : ℕ) (peer : Peer) (rid : ℕ)
        (m : MessageOut) (net : NetState),
      m.nextIdx ≤ (homa_xmit_data cfg now peer rid m net).1.nextIdx ∧
      (homa_xmit_data cfg now peer rid m net).1.next_offset +
          HOMA_MAX_DATA_PER_PACKET * m.nextIdx =
        m.next_offset + HOMA_MAX_DATA_PER_PACKET *
          (homa_xmit_data cfg now peer rid m net).1.nextIdx) ∧
    (∀ (cfg : Config) (len cut dp sp id now rid : ℕ) (peer : Peer)
        (m : MessageOut) (net : NetState),
      homa_message_out_init cfg len cut dp sp id = Except.ok m →
      0 < len → len ≤ cfg.rtt_bytes →
      (homa_xmit_data cfg now peer rid m net).2.2 = false →
      (homa_xmit_data cfg now peer rid m net).1.nextIdx =
        m.packets.length ∧
      (homa_xmit_data cfg now peer rid m net).1.next_offset =
        HOMA_MAX_DATA_PER_PACKET *
          ((len + HOMA_MAX_DATA_PER_PACKET - 1) /
            HOMA_MAX_DATA_PER_PACKET)) ∧
    ((homa_xmit_data cfgNT 10000 peer6 1 msg5000shared net0).2.1.log =
      [{ offset := 0, priority := 6, retransmit := false },
       { offset := 4200, priority := 6, retransmit := false }] ∧
     (homa_xmit_data cfgNT 10000 peer6 1 msg5000shared net0).1.next_offset
       = 5600 ∧
     (homa_xmit_data cfgNT 10000 peer6 1 msg5000shared net0).1.nextIdx
       = 4) := by
  refine ⟨?_, ?_, ?_⟩
  · intro cfg now peer rid m net
    have h := xmitLoop_invariants cfg now peer rid m net
    exact ⟨h.2.2.2.2.2.1, h.2.2.2.2.2.2.1⟩
  · intro cfg len cut dp sp id now rid peer m net hok hpos hrtt hflag
    have hinv := xmitLoop_invariants cfg now peer rid m net
    rw [homa_message_out_init] at hok
    split at hok
    · exact absurd hok (by simp)
    · injection hok with h
      obtain ⟨e1, e2, e3, e4, e5, e6, e7, e8, e9⟩ := hinv
      have hguard := e8 hflag
      have hgr : m.granted = len := by
        rw [← h]
        show (if cfg.rtt_bytes > len then len else cfg.rtt_bytes) = len
        split <;> omega
      have hno : m.next_offset = 0 := by rw [← h]
      have hni : m.nextIdx = 0 := by rw [← h]
      have hpl : m.packets.length = (len + 1399) / 1400 := by
        rw [← h]
        exact buildPackets_length len cfg.rtt_bytes cut dp sp id len
      have e9' := e9 (by omega)
      simp only [HOMA_MAX_DATA_PER_PACKET, homa_xmit_data] at e7 ⊢
      constructor
      · omega
      · omega
  · refine ⟨?_, ?_, ?_⟩ <;>
      simp [homa_xmit_data, xmitLoop, msg5000shared, msg5000, initMsg,
        homa_message_out_init, buildPackets, HOMA_MAX_DATA_PER_PACKET,
        throttleCond, cfgNT, cfg0, net0, peer6, advanceMsg, taggedPacket,
        sendPriority, __homa_xmit_data, homa_update_idle_time,
        HOMA_MAX_IPV4_HEADER, HOMA_VLAN_HEADER, HOMA_ETH_OVERHEAD,
        DATA_HEADER_BYTES, List.getD]

/-- C5 (witness): the drain property evaluated on the len-200 message (one
packet, `ceil(200/1400) = 1`): after the send, `nextIdx = 1` and
`next_offset = 1400`. -/
theorem C5_witness :
    (homa_xmit_data cfg0 10000 peer6 1 msg200 net0).1.nextIdx =
      msg200.packets.length ∧
    (homa_xmit_data cfg0 10000 peer6 1 msg200 net0).1.next_offset =
      HOMA_MAX_DATA_PER_PACKET *
        ((200 + HOMA_MAX_DATA_PER_PACKET - 1) / HOMA_MAX_DATA_PER_PACKET) :=
  C5_offset_advance.2.1 cfg0 200 0 99 40000 1 10000 1 peer6 msg200 net0
    rfl (by omega) (by simp [cfg0])
    (by simp [homa_xmit_data, xmitLoop, msg200, initMsg,
      homa_message_out_init, buildPackets, HOMA_MAX_DATA_PER_PACKET,
      throttleCond, cfg0, net0, peer6, advanceMsg, taggedPacket,
      sendPriority, __homa_xmit_data, homa_update_idle_time,
      HOMA_MAX_IPV4_HEADER, HOMA_VLAN_HEADER, HOMA_ETH_OVERHEAD,
      DATA_HEADER_BYTES, List.getD])

def resend1 : MessageOut × NetState :=
  homa_resend_data cfg0 10000 peer6 msg10000 1000 5000 5 net0

def resend2 : MessageOut × NetState :=
  homa_resend_data cfg0 10000 peer6 resend1.1 1400 2800 7
    { resend1.2 with log := [] }

/-- C6: `homa_resend_data` over `[start, end)` hands to IP exactly the
non-shared packets whose `[offset, offset + MAX_DATA_PER_PACKET)` intersects
`[start, end)` — in list order, each tagged `retransmit = 1` with the
caller's priority — and (offsets being strictly increasing) the walk stops
at the first packet with `offset ≥ end`.  Concretely on a len-10000 message:
`Resend([1000, 5000), prio 5)` emits offsets 0, 1400, 2800, 4200 and a
subsequent `Resend([1400, 2800), prio 7)` emits only offset 1400. -/
theorem C6_resend_range :
    (∀ (cfg : Config) (now : ℕ) (peer : Peer) (m : MessageOut)
        (start stop : ℤ) (prio : ℕ) (net : NetState),
      m.packets.Pairwise (fun a b => a.offset < b.offset) →
      (homa_resend_data cfg now peer m start stop prio net).2.log =
        net.log ++ (m.packets.filter (resendRange start stop)).map
          (fun p =>
            { offset := p.offset, priority := prio, retransmit := true })) ∧
    resend1.2.log =
      [{ offset := 0, priority := 5, retransmit := true },
       { offset := 1400, priority := 5, retransmit := true },
       { offset := 2800, priority := 5, retransmit := true },
       { offset := 4200, priority := 5, retransmit := true }] ∧
    resend2.2.log = [{ offset := 1400, priority := 7, retransmit := true }] := by
  refine ⟨?_, ?_, ?_⟩
  · intro cfg now peer m start stop prio net hpw
    exact resendWalk_log cfg now peer start stop prio m.packets net hpw
  · simp [resend1, homa_resend_data, resendWalk, msg10000, initMsg,
      homa_message_out_init, buildPackets, HOMA_MAX_DATA_PER_PACKET,
      cfg0, net0, peer6, __homa_xmit_data, homa_update_idle_time,
      HOMA_MAX_IPV4_HEADER, HOMA_VLAN_HEADER, HOMA_ETH_OVERHEAD,
      DATA_HEADER_BYTES]
  · simp [resend2, resend1, homa_resend_data, resendWalk, msg10000, initMsg,
      homa_message_out_init, buildPackets, HOMA_MAX_DATA_PER_PACKET,
      cfg0, net0, peer6, __homa_xmit_data, homa_update_idle_time,
      HOMA_MAX_IPV4_HEADER, HOMA_VLAN_HEADER, HOMA_ETH_OVERHEAD,
      DATA_HEADER_BYTES]

/-- C6 (witness): the general statement applied to the len-10000 message and
range `[1000, 5000)` at priority 5. -/
theorem C6_witness :
    (homa_resend_data cfg0 10000 peer6 msg10000 1000 5000 5 net0).2.log =
      net0.log ++ (msg10000.packets.filter (resendRange 1000 5000)).map
        (fun p =>
          { offset := p.offset, priority := 5, retransmit := true }) :=
  C6_resend_range.1 cfg0 10000 peer6 msg10000 1000 5000 5 net0
    (by simp [msg10000, initMsg, homa_message_out_init, buildPackets,
      HOMA_MAX_DATA_PER_PACKET, cfg0, List.pairwise_cons])

/-- C7: retransmission never advances the original-transmission state:
`homa_resend_data` leaves `next_offset`, `next_packet` (`nextIdx`) and every
other scalar field of the message unchanged (it touches only the packet
buffers and the network state). -/
theorem C7_resend_frame (cfg : Config) (now : ℕ) (peer : Peer)
    (m : MessageOut) (start stop : ℤ) (prio : ℕ) (net : NetState) :
    (homa_resend_data cfg now peer m start stop prio net).1.next_offset =
      m.next_offset ∧
    (homa_resend_data cfg now peer m start stop prio net).1.nextIdx =
      m.nextIdx ∧
    (homa_resend_data cfg now peer m start stop prio net).1.length =
      m.length ∧
    (homa_resend_data cfg now peer m start stop prio net).1.granted =
      m.granted ∧
    (homa_resend_data cfg now peer m start stop prio net).1.unscheduled =
      m.unscheduled ∧
    (homa_resend_data cfg now peer m start stop prio net).1.sched_priority =
      m.sched_priority :=
  ⟨rfl, rfl, rfl, rfl, rfl, rfl⟩

/-- C8: `Advance(bytes)` on the link-idle clock sets `link_idle_time` to
`max(old, now) + cycles` with
`cycles = (bytes + IP_HDR + VLAN_HDR + ETH_OVERHEAD) × cycles_per_kbyte
/ 1000`; in particular the new value is never below the old one, so the
clock is monotonically non-decreasing across `Advance` calls. -/
theorem C8_idle_time_advance (cfg : Config) (now idle bytes : ℕ) :
    homa_update_idle_time cfg now idle bytes =
      max idle now +
        (bytes + HOMA_MAX_IPV4_HEADER + HOMA_VLAN_HEADER +
          HOMA_ETH_OVERHEAD) * cfg.cycles_per_kbyte / 1000 ∧
    idle ≤ homa_update_idle_time cfg now idle bytes := by
  rw [homa_update_idle_time]
  constructor
  · split <;> rename_i h
    · rw [Nat.max_eq_right (Nat.le_of_lt h)]
    · rw [Nat.max_eq_left (Nat.le_of_not_lt h)]
  · split <;> omega

/-- C9: the throttled list after any sequence of `Add` calls is sorted by
ascending remaining bytes; `Add` of an RPC already on the list is a no-op
(idempotent); and among equal remaining bytes a new RPC lands after the
existing ones, so adding remainders 10000, 5000, 15000, 12000, 10000 (ids
1..5) yields 5000, 10000, 10000, 12000, 15000 with id 5 after id 1. -/
theorem C9_throttled_order :
    (∀ (rs : List TRpc),
      (rs.foldl (fun acc r => homa_add_to_throttled r acc) []).Pairwise
        (fun a b => a.rem ≤ b.rem)) ∧
    (∀ (rpc : TRpc) (l : List TRpc),
      homa_add_to_throttled rpc (homa_add_to_throttled rpc l) =
        homa_add_to_throttled rpc l) ∧
    ([({ id := 1, length := 10000, next_offset := 0 } : TRpc),
      { id := 2, length := 5000, next_offset := 0 },
      { id := 3, length := 15000, next_offset := 0 },
      { id := 4, length := 12000, next_offset := 0 },
      { id := 5, length := 10000, next_offset := 0 }].foldl
        (fun acc r => homa_add_to_throttled r acc) [] =
      [{ id := 2, length := 5000, next_offset := 0 },
       { id := 1, length := 10000, next_offset := 0 },
       { id := 5, length := 10000, next_offset := 0 },
       { id := 4, length := 12000, next_offset := 0 },
       { id := 3, length := 15000, next_offset := 0 }]) := by
  refine ⟨?_, ?_, ?_⟩
  · intro rs
    exact foldl_add_to_throttled_sorted rs [] (List.Pairwise.nil)
  · intro rpc l
    exact homa_add_to_throttled_idem rpc l
  · decide

/-- C10: whenever `homa_xmit_data` returns without having taken the throttle
branch, the message is drained up to its grant: `next_offset ≥ granted` or
`next_packet` is null (`nextIdx` past the packet list).  The loop can only
stop by exhausting the granted window, running out of packets, or
throttling. -/
theorem C10_drained_on_return (cfg : Config) (now : ℕ) (peer : Peer)
    (rid : ℕ) (m : MessageOut) (net : NetState)
    (hflag : (homa_xmit_data cfg now peer rid m net).2.2 = false) :
    m.granted ≤ (homa_xmit_data cfg now peer rid m net).1.next_offset ∨
    m.packets.length ≤ (homa_xmit_data cfg now peer rid m net).1.nextIdx := by
  have h := xmitLoop_invariants cfg now peer rid m net
  have hguard := h.2.2.2.2.2.2.2.1 hflag
  have hgr := h.2.1
  have hpl := h.2.2.2.2.1
  simp only [homa_xmit_data] at hflag ⊢
  omega

/-- C10 (witness): the len-200 send returns with the flag clear and indeed
drained (`next_offset = 1400 ≥ granted = 200`). -/
theorem C10_witness :
    msg200.granted ≤
      (homa_xmit_data cfg0 10000 peer6 1 msg200 net0).1.next_offset ∨
    msg200.packets.length ≤
      (homa_xmit_data cfg0 10000 peer6 1 msg200 net0).1.nextIdx :=
  C10_drained_on_return cfg0 10000 peer6 1 msg200 net0
    (by simp [homa_xmit_data, xmitLoop, msg200, initMsg,
      homa_message_out_init, buildPackets, HOMA_MAX_DATA_PER_PACKET,
      throttleCond, cfg0, net0, peer6, advanceMsg, taggedPacket,
      sendPriority, __homa_xmit_data, homa_update_idle_time,
      HOMA_MAX_IPV4_HEADER, HOMA_VLAN_HEADER, HOMA_ETH_OVERHEAD,
      DATA_HEADER_BYTES, List.getD])
